import Mathlib

/-!
# Verification of the assistive color/proximity reader

Shallow embedding of the algorithmic core of `main.py` and of the standalone
diagnostic utilities `tools/test_color.py` and `tools/test_ultrasonic.py`.

Modelling conventions:
* Python floats are modelled as exact rationals (`ℚ`); every constant in the
  program (`1.20`, `0.35`, `0.05`, the beep delays, `17150.0`) is written as
  the exact rational it denotes in the source text.
* `closest_color` compares `math.sqrt(dr**2 + dg**2 + db**2)` values with
  strict `<`.  Square root is strictly monotone on nonnegative reals, so the
  comparisons coincide with comparisons of the radicands; the embedding keeps
  the squared weighted distance (`wdistSq`) so that everything stays in `ℚ`.
  The initial `best_dist = float("inf")` is modelled by `Option ℚ` with
  `none` standing for infinity (every real distance compares below it).
* Side effects (sleeps, sensor reads, speech, buzzer control) are modelled as
  an explicit trace of `Effect`s emitted by one loop iteration.
-/

/-- Observable effects performed by the program, in order of occurrence. -/
inductive Effect
  | sleep (seconds : ℚ)
  | readColorSensor
  | speakText (text : String)
  | readDistanceSensor
  | buzzerStart (duty : ℚ)
  | buzzerStop

/-- `RED_W = 1.20` from `main.py` (identical in `tools/test_color.py`). -/
def RED_W : ℚ := 12 / 10

/-- `GREEN_W = 0.35` from `main.py` (identical in `tools/test_color.py`). -/
def GREEN_W : ℚ := 35 / 100

/-- `BLUE_W = 0.05` from `main.py` (identical in `tools/test_color.py`). -/
def BLUE_W : ℚ := 5 / 100

/-- The 8-entry reference table `COLOR_MAP` of `main.py`, in source order. -/
def COLOR_MAP : List (String × (ℤ × ℤ × ℤ)) := [
  ("red",     (255, 0, 0)),
  ("orange",  (255, 128, 0)),
  ("yellow",  (255, 255, 0)),
  ("green",   (0, 255, 0)),
  ("blue",    (0, 0, 255)),
  ("indigo",  (127, 0, 255)),
  ("violet",  (255, 0, 255)),
  ("white",   (255, 255, 255))]

/-- Squared weighted Euclidean distance between a sample and a reference:
the radicand of `math.sqrt(dr**2 + dg**2 + db**2)` in `closest_color`
(`dr = (rr - r) * RED_W`, etc.).  Comparing these squares with `<` agrees
with comparing the square roots, since `sqrt` is strictly monotone on
nonnegative reals. -/
def wdistSq (rgb ref : ℤ × ℤ × ℤ) : ℚ :=
  (((ref.1 - rgb.1 : ℤ) : ℚ) * RED_W) ^ 2
  + (((ref.2.1 - rgb.2.1 : ℤ) : ℚ) * GREEN_W) ^ 2
  + (((ref.2.2 - rgb.2.2 : ℤ) : ℚ) * BLUE_W) ^ 2

/-- One iteration of the `for name, (rr, gg, bb) in COLOR_MAP` loop of
`closest_color`: the accumulator is `(best_name, best_dist)`, with
`best_dist = none` standing for the initial `float("inf")` (every distance
compares strictly below it, so the first entry always replaces it). -/
def ccStep (rgb : ℤ × ℤ × ℤ) (acc : String × Option ℚ) (e : String × (ℤ × ℤ × ℤ)) :
    String × Option ℚ :=
  match acc.2 with
  | none => (e.1, some (wdistSq rgb e.2))
  | some bd => if wdistSq rgb e.2 < bd then (e.1, some (wdistSq rgb e.2)) else acc

/-- The full loop of `closest_color` over an arbitrary reference table,
starting from `best_name = "unknown"`, `best_dist = inf`. -/
def ccFold (rgb : ℤ × ℤ × ℤ) (table : List (String × (ℤ × ℤ × ℤ))) :
    String × Option ℚ :=
  table.foldl (ccStep rgb) ("unknown", none)

/-- `closest_color` from `main.py`: nearest-neighbor classification over
`COLOR_MAP` under the weighted Euclidean metric. -/
def closest_color (rgb : ℤ × ℤ × ℤ) : String := (ccFold rgb COLOR_MAP).1

/-- `BEEP_TABLE` from `main.py`: `(threshold_cm, delay_s)` pairs in source
order (descending thresholds, last threshold 0). -/
def BEEP_TABLE : List (ℚ × ℚ) :=
  [(150, 5/4), (120, 1), (90, 3/4), (60, 1/2), (30, 1/4), (0, 7/100)]

/-- The `for threshold, t in BEEP_TABLE: if dist >= threshold: wait_time = t;
break` loop of `beep_for_distance`: returns the first delay whose threshold
is `≤ dist`, or `none` (modelling `wait_time = None`) when no entry matches. -/
def beep_lookup (dist : ℚ) : List (ℚ × ℚ) → Option ℚ
  | [] => none
  | (threshold, t) :: rest => if dist ≥ threshold then some t else beep_lookup dist rest

/-- The wait time resolved by `beep_for_distance dist` from `BEEP_TABLE`
(the spec calls this `feedback_delay`). -/
def beepDelay (dist : ℚ) : Option ℚ := beep_lookup dist BEEP_TABLE

/-- Effect trace of `beep_for_distance`: if no `wait_time` was resolved the
function returns with no effect; otherwise it sleeps `wait_time`, starts the
buzzer at duty cycle 10, sleeps `0.1`, and stops the buzzer. -/
def beep_for_distance (dist : ℚ) : List Effect :=
  match beepDelay dist with
  | none => []
  | some w => [Effect.sleep w, Effect.buzzerStart 10, Effect.sleep (1/10),
               Effect.buzzerStop]

/-- The body of `on_button` in `main.py`: `active = not active`. -/
def on_button (active : Bool) : Bool := !active

/-- The `bouncetime=200` argument passed to `GPIO.add_event_detect`. -/
def DEBOUNCE_MS : ℚ := 200

/-- State of the button/toggle subsystem: the `active` flag plus the time of
the last accepted (non-suppressed) edge. -/
structure ButtonState where
  active : Bool
  lastAccepted : Option ℚ

/-- Modelled from the spec: the debounce suppression itself is performed by
the `RPi.GPIO` library (configured via `bouncetime=200` in `setup_gpio`),
not by code under `src/`.  Per the spec, an edge arriving strictly inside
the 200 ms window after the last accepted edge is suppressed; otherwise the
callback `on_button` runs and flips the flag exactly once. -/
def buttonEvent (s : ButtonState) (t : ℚ) : ButtonState :=
  match s.lastAccepted with
  | none => ⟨on_button s.active, some t⟩
  | some t0 => if t - t0 < DEBOUNCE_MS then s else ⟨on_button s.active, some t⟩

/-- Pure content of `distance_cm` in `main.py`: given the last-sampled
`pulse_start` and `pulse_end` times, the returned distance is
`duration * 17150.0`. -/
def distance_cm (pulse_start pulse_end : ℚ) : ℚ := (pulse_end - pulse_start) * 17150

/-- Effect trace of one iteration of the `while True` loop in `main`:
when `active` is false the iteration only sleeps `0.1` and re-checks;
otherwise it reads the color sensor, classifies, speaks the name, reads the
distance sensor, and runs `beep_for_distance`. -/
def loopIter (active : Bool) (rgb : ℤ × ℤ × ℤ) (dist : ℚ) : List Effect :=
  if !active then [Effect.sleep (1/10)]
  else [Effect.readColorSensor, Effect.speakText (closest_color rgb),
        Effect.readDistanceSensor] ++ beep_for_distance dist

namespace Tools

/-- The 9-entry `COLOR_MAP` of `tools/test_color.py`: the 8 entries of
`main.py` in the same order, followed by `black`. -/
def COLOR_MAP : List (String × (ℤ × ℤ × ℤ)) := [
  ("red",     (255, 0, 0)),
  ("orange",  (255, 128, 0)),
  ("yellow",  (255, 255, 0)),
  ("green",   (0, 255, 0)),
  ("blue",    (0, 0, 255)),
  ("indigo",  (127, 0, 255)),
  ("violet",  (255, 0, 255)),
  ("white",   (255, 255, 255)),
  ("black",   (0, 0, 0))]

/-- `closest_color` from `tools/test_color.py`: textually the same loop and
weights as `main.py`, but over the 9-entry table above. -/
def closest_color (rgb : ℤ × ℤ × ℤ) : String := (ccFold rgb Tools.COLOR_MAP).1

/-- Pure content of `distance_cm` in `tools/test_ultrasonic.py`:
`(end - start) * 17150.0`. -/
def distance_cm (tStart tEnd : ℚ) : ℚ := (tEnd - tStart) * 17150

end Tools

/-! ## Helper lemmas about the classification fold -/

/-- Unfolding `ccStep` when `best_dist` is still `inf`. -/
lemma ccStep_none (rgb : ℤ × ℤ × ℤ) (n0 : String) (e : String × (ℤ × ℤ × ℤ)) :
    ccStep rgb (n0, none) e = (e.1, some (wdistSq rgb e.2)) := rfl

/-- Unfolding `ccStep` when a best distance is already tracked. -/
lemma ccStep_some (rgb : ℤ × ℤ × ℤ) (n0 : String) (d0 : ℚ) (e : String × (ℤ × ℤ × ℤ)) :
    ccStep rgb (n0, some d0) e =
      if wdistSq rgb e.2 < d0 then (e.1, some (wdistSq rgb e.2)) else (n0, some d0) := rfl

/-- If no remaining entry beats the tracked best distance, the fold leaves the
accumulator unchanged (the strict `<` never fires). -/
lemma ccFold_stable (rgb : ℤ × ℤ × ℤ) (n0 : String) (d0 : ℚ) :
    ∀ l : List (String × (ℤ × ℤ × ℤ)), (∀ e ∈ l, ¬ wdistSq rgb e.2 < d0) →
      l.foldl (ccStep rgb) (n0, some d0) = (n0, some d0) := by
  intro l
  induction l with
  | nil => intro _; rfl
  | cons x xs ih =>
    intro h
    rw [List.foldl_cons, ccStep_some, if_neg (h x (List.mem_cons_self x xs))]
    exact ih fun e he => h e (List.mem_cons_of_mem x he)

/-- Running the fold over `pre ++ e :: post` from a tracked best that `e`
beats: if `e` strictly beats everything in `pre` and nothing in `post`
strictly beats `e`, the fold ends at `e`. -/
lemma ccFold_first_min_aux (rgb : ℤ × ℤ × ℤ) (e : String × (ℤ × ℤ × ℤ))
    (post : List (String × (ℤ × ℤ × ℤ)))
    (hpost : ∀ x ∈ post, ¬ wdistSq rgb x.2 < wdistSq rgb e.2) :
    ∀ (pre : List (String × (ℤ × ℤ × ℤ))) (n0 : String) (d0 : ℚ),
      wdistSq rgb e.2 < d0 →
      (∀ x ∈ pre, wdistSq rgb e.2 < wdistSq rgb x.2) →
      (pre ++ e :: post).foldl (ccStep rgb) (n0, some d0)
        = (e.1, some (wdistSq rgb e.2)) := by
  intro pre
  induction pre with
  | nil =>
    intro n0 d0 hd0 _
    rw [List.nil_append, List.foldl_cons, ccStep_some, if_pos hd0]
    exact ccFold_stable rgb e.1 (wdistSq rgb e.2) post hpost
  | cons x xs ih =>
    intro n0 d0 hd0 hpre
    rw [List.cons_append, List.foldl_cons, ccStep_some]
    by_cases hx : wdistSq rgb x.2 < d0
    · rw [if_pos hx]
      exact ih x.1 (wdistSq rgb x.2) (hpre x (List.mem_cons_self x xs))
        fun y hy => hpre y (List.mem_cons_of_mem x hy)
    · rw [if_neg hx]
      exact ih n0 d0 hd0 fun y hy => hpre y (List.mem_cons_of_mem x hy)

/-- The classification fold returns the first entry achieving the minimal
weighted distance: starting from `best_dist = inf`, if `e` strictly beats
every earlier entry and no later entry strictly beats `e`, the fold returns
`e`'s name and distance. -/
lemma ccFold_first_min (rgb : ℤ × ℤ × ℤ) (pre post : List (String × (ℤ × ℤ × ℤ)))
    (e : String × (ℤ × ℤ × ℤ))
    (hpre : ∀ x ∈ pre, wdistSq rgb e.2 < wdistSq rgb x.2)
    (hpost : ∀ x ∈ post, ¬ wdistSq rgb x.2 < wdistSq rgb e.2) :
    ccFold rgb (pre ++ e :: post) = (e.1, some (wdistSq rgb e.2)) := by
  cases pre with
  | nil =>
    unfold ccFold
    rw [List.nil_append, List.foldl_cons, ccStep_none]
    exact ccFold_stable rgb e.1 (wdistSq rgb e.2) post hpost
  | cons x xs =>
    unfold ccFold
    rw [List.cons_append, List.foldl_cons, ccStep_none]
    exact ccFold_first_min_aux rgb e post hpost xs x.1 (wdistSq rgb x.2)
      (hpre x (List.mem_cons_self x xs))
      fun y hy => hpre y (List.mem_cons_of_mem x hy)

/-- The fold's final name is either the accumulator's name or one of the
names of the table scanned. -/
lemma ccFold_acc_mem (rgb : ℤ × ℤ × ℤ) :
    ∀ (l : List (String × (ℤ × ℤ × ℤ))) (acc : String × Option ℚ),
      (l.foldl (ccStep rgb) acc).1 = acc.1
      ∨ (l.foldl (ccStep rgb) acc).1 ∈ l.map Prod.fst := by
  intro l
  induction l with
  | nil => intro acc; exact Or.inl rfl
  | cons x xs ih =>
    intro acc
    rw [List.foldl_cons]
    rcases ih (ccStep rgb acc x) with h | h
    · rw [h]
      rcases acc with ⟨n0, d0⟩
      cases d0 with
      | none =>
        rw [ccStep_none, List.map_cons]
        exact Or.inr (List.mem_cons_self _ _)
      | some bd =>
        rw [ccStep_some]
        by_cases hlt : wdistSq rgb x.2 < bd
        · rw [if_pos hlt, List.map_cons]
          exact Or.inr (List.mem_cons_self _ _)
        · rw [if_neg hlt]
          exact Or.inl rfl
    · rw [List.map_cons]
      exact Or.inr (List.mem_cons_of_mem _ h)

/-- Over a nonempty table the fold's name is one of the table's names. -/
lemma ccFold_mem_cons (rgb : ℤ × ℤ × ℤ) (x : String × (ℤ × ℤ × ℤ))
    (xs : List (String × (ℤ × ℤ × ℤ))) :
    (ccFold rgb (x :: xs)).1 ∈ (x :: xs).map Prod.fst := by
  unfold ccFold
  rw [List.foldl_cons, ccStep_none]
  rcases ccFold_acc_mem rgb xs (x.1, some (wdistSq rgb x.2)) with h | h
  · rw [h, List.map_cons]
    exact List.mem_cons_self _ _
  · rw [List.map_cons]
    exact List.mem_cons_of_mem _ h

/-- The diagnostic table is the main table with `black` appended. -/
lemma tools_color_map_eq : Tools.COLOR_MAP = COLOR_MAP ++ [("black", (0, 0, 0))] := rfl

/-- The diagnostic classifier is the main fold followed by one more `ccStep`
on the `black` entry. -/
lemma tools_closest_eq_step (rgb : ℤ × ℤ × ℤ) :
    Tools.closest_color rgb
      = (ccStep rgb (ccFold rgb COLOR_MAP) ("black", (0, 0, 0))).1 := by
  unfold Tools.closest_color ccFold
  rw [tools_color_map_eq, List.foldl_append, List.foldl_cons, List.foldl_nil]

/-- Whenever the diagnostic classifier does not answer `black`, it agrees
with the main classifier. -/
lemma tools_agree (rgb : ℤ × ℤ × ℤ) (h : Tools.closest_color rgb ≠ "black") :
    Tools.closest_color rgb = closest_color rgb := by
  have hstep := tools_closest_eq_step rgb
  rcases hr : ccFold rgb COLOR_MAP with ⟨r1, r2⟩
  rw [hr] at hstep
  cases r2 with
  | none =>
    rw [ccStep_none] at hstep
    exact absurd hstep h
  | some bd =>
    rw [ccStep_some] at hstep
    by_cases hlt : wdistSq rgb ("black", ((0 : ℤ), (0 : ℤ), (0 : ℤ))).2 < bd
    · rw [if_pos hlt] at hstep
      exact absurd hstep h
    · rw [if_neg hlt] at hstep
      rw [hstep]
      unfold closest_color
      rw [hr]

/-! ## Claim theorems -/

/-- C1 (counterexample): the claimed value `feedback_delay(100) = 1.00` is
false on the code: scanning `BEEP_TABLE` with `dist >= threshold`, the first
matching entry for 100 is `(90, 0.75)`, so the resolved delay is 0.75. -/
theorem C1_counterexample : ¬ beepDelay 100 = some 1 := by
  norm_num [beepDelay, beep_lookup, BEEP_TABLE]

/-- C1 (amended): the delays `beep_for_distance` actually resolves at the
spec's sample distances are `feedback_delay(200) = 1.25`,
`feedback_delay(100) = 0.75`, `feedback_delay(75) = 0.50`,
`feedback_delay(45) = 0.25`, `feedback_delay(20) = 0.07`, and
`feedback_delay(-5)` resolves no delay at all (`wait_time` stays `None`). -/
theorem C1_amended_values :
    beepDelay 200 = some (5/4) ∧ beepDelay 100 = some (3/4)
    ∧ beepDelay 75 = some (1/2) ∧ beepDelay 45 = some (1/4)
    ∧ beepDelay 20 = some (7/100) ∧ beepDelay (-5) = none := by
  refine ⟨?_, ?_, ?_, ?_, ?_, ?_⟩ <;> norm_num [beepDelay, beep_lookup, BEEP_TABLE]

/-- C2 (counterexample): `beep_for_distance` does not resolve a delay for
every input: at distance −3 no `BEEP_TABLE` entry matches (−3 ≥ 0 is false),
so the result is `None`, contradicting the claim that every negative
distance receives the 0.07 s delay. -/
theorem C2_counterexample : beepDelay (-3) = none := by
  norm_num [beepDelay, beep_lookup, BEEP_TABLE]

/-- C2 (amended): every non-negative distance matches some `BEEP_TABLE`
entry (the 0-floor entry is a catch-all for `[0, 30)`), but a strictly
negative distance matches no entry — the scan compares `dist >= threshold`
and even the last threshold 0 fails — so no delay is resolved there. -/
theorem C2_amended_total :
    (∀ dist : ℚ, 0 ≤ dist → (beepDelay dist).isSome = true)
    ∧ (∀ dist : ℚ, dist < 0 → beepDelay dist = none) := by
  constructor
  · intro dist hd
    simp only [beepDelay, BEEP_TABLE, beep_lookup]
    split_ifs <;> rfl
  · intro dist hd
    simp only [beepDelay, BEEP_TABLE, beep_lookup]
    split_ifs <;> first | rfl | linarith

/-- C2 (witness): the amended theorem applied at the concrete distances 42
(non-negative, resolves a delay) and −3/2 (negative, resolves none). -/
theorem C2_witness :
    ((0 : ℚ) ≤ 42 ∧ (beepDelay 42).isSome = true)
    ∧ ((-3/2 : ℚ) < 0 ∧ beepDelay (-3/2) = none) :=
  ⟨⟨by norm_num, C2_amended_total.1 42 (by norm_num)⟩,
   ⟨by norm_num, C2_amended_total.2 (-3/2) (by norm_num)⟩⟩

/-- A resolved delay pins the distance into the band of its table entry. -/
lemma beepDelay_cases (d w : ℚ) (h : beepDelay d = some w) :
    (150 ≤ d ∧ w = 5/4) ∨ (120 ≤ d ∧ d < 150 ∧ w = 1)
    ∨ (90 ≤ d ∧ d < 120 ∧ w = 3/4) ∨ (60 ≤ d ∧ d < 90 ∧ w = 1/2)
    ∨ (30 ≤ d ∧ d < 60 ∧ w = 1/4) ∨ (0 ≤ d ∧ d < 30 ∧ w = 7/100) := by
  simp only [beepDelay, BEEP_TABLE, beep_lookup] at h
  split_ifs at h with h1 h2 h3 h4 h5 h6
  · exact Or.inl ⟨h1, (Option.some.inj h).symm⟩
  · exact Or.inr (Or.inl ⟨h2, not_le.mp h1, (Option.some.inj h).symm⟩)
  · exact Or.inr (Or.inr (Or.inl ⟨h3, not_le.mp h2, (Option.some.inj h).symm⟩))
  · exact Or.inr (Or.inr (Or.inr (Or.inl ⟨h4, not_le.mp h3, (Option.some.inj h).symm⟩)))
  · exact Or.inr (Or.inr (Or.inr (Or.inr (Or.inl
      ⟨h5, not_le.mp h4, (Option.some.inj h).symm⟩))))
  · exact Or.inr (Or.inr (Or.inr (Or.inr (Or.inr
      ⟨h6, not_le.mp h5, (Option.some.inj h).symm⟩))))

/-- C5: for distances `d1 < d2` that resolve delays from different
`BEEP_TABLE` entries (distinct delays), the delay for the closer distance
is at most the delay for the farther one. -/
theorem C5_monotone (d1 d2 w1 w2 : ℚ) (hlt : d1 < d2)
    (h1 : beepDelay d1 = some w1) (h2 : beepDelay d2 = some w2)
    (hne : w1 ≠ w2) : w1 ≤ w2 := by
  rcases beepDelay_cases d1 w1 h1 with ⟨ha, hw⟩ | ⟨ha, hb, hw⟩ | ⟨ha, hb, hw⟩
    | ⟨ha, hb, hw⟩ | ⟨ha, hb, hw⟩ | ⟨ha, hb, hw⟩ <;>
  rcases beepDelay_cases d2 w2 h2 with ⟨hc, hv⟩ | ⟨hc, hd, hv⟩ | ⟨hc, hd, hv⟩
    | ⟨hc, hd, hv⟩ | ⟨hc, hd, hv⟩ | ⟨hc, hd, hv⟩ <;>
  subst hw <;> subst hv <;> linarith

/-- C5 (witness): the theorem applied at `d1 = 20`, `d2 = 100`, whose bands
resolve the distinct delays 0.07 and 0.75. -/
theorem C5_witness :
    (20 : ℚ) < 100 ∧ beepDelay 20 = some (7/100) ∧ beepDelay 100 = some (3/4)
    ∧ ((7/100 : ℚ) ≠ 3/4) ∧ ((7/100 : ℚ) ≤ 3/4) :=
  ⟨by norm_num, by norm_num [beepDelay, beep_lookup, BEEP_TABLE],
   by norm_num [beepDelay, beep_lookup, BEEP_TABLE], by norm_num,
   C5_monotone 20 100 (7/100) (3/4) (by norm_num)
     (by norm_num [beepDelay, beep_lookup, BEEP_TABLE])
     (by norm_num [beepDelay, beep_lookup, BEEP_TABLE]) (by norm_num)⟩

/-- C10: for every strictly negative distance, `beep_for_distance` selects
no table entry (`wait_time` stays `None`), returns early, and performs no
sleep or buzzer action: its effect trace is empty. -/
theorem C10_negative_no_effect (dist : ℚ) (h : dist < 0) :
    beepDelay dist = none ∧ beep_for_distance dist = [] := by
  have hnone : beepDelay dist = none := by
    simp only [beepDelay, BEEP_TABLE, beep_lookup]
    split_ifs <;> first | rfl | linarith
  exact ⟨hnone, by simp [beep_for_distance, hnone]⟩

/-- C10 (witness): the theorem applied at the concrete distance −1. -/
theorem C10_witness :
    (-1 : ℚ) < 0 ∧ beepDelay (-1) = none ∧ beep_for_distance (-1) = [] :=
  ⟨by norm_num, (C10_negative_no_effect (-1) (by norm_num)).1,
   (C10_negative_no_effect (-1) (by norm_num)).2⟩

/-- C3: `closest_color` maps each reference triple of the fixed 8-entry
`COLOR_MAP` to that entry's own name (all 8 entries enumerated), in
particular `(255,0,0) ↦ "red"` and `(255,255,255) ↦ "white"`. -/
theorem C3_exact_reference_match :
    closest_color (255, 0, 0) = "red" ∧ closest_color (255, 128, 0) = "orange"
    ∧ closest_color (255, 255, 0) = "yellow" ∧ closest_color (0, 255, 0) = "green"
    ∧ closest_color (0, 0, 255) = "blue" ∧ closest_color (127, 0, 255) = "indigo"
    ∧ closest_color (255, 0, 255) = "violet"
    ∧ closest_color (255, 255, 255) = "white" := by
  refine ⟨?_, ?_, ?_, ?_, ?_, ?_, ?_, ?_⟩ <;>
    norm_num [closest_color, ccFold, COLOR_MAP, ccStep, wdistSq, RED_W, GREEN_W, BLUE_W,
      List.foldl]

/-- C4: if the sample's weighted distance is minimal at an entry `e` of
`COLOR_MAP`, is strictly smaller than at every entry before `e`, and is
tied with some later entry (two or more references achieve the minimum),
then `closest_color` returns `e`'s name — the earliest minimizer wins,
because the strict less-than comparison never replaces it. -/
theorem C4_tie_break (rgb : ℤ × ℤ × ℤ) (pre post : List (String × (ℤ × ℤ × ℤ)))
    (e : String × (ℤ × ℤ × ℤ))
    (hsplit : COLOR_MAP = pre ++ e :: post)
    (htie : ∃ x ∈ post, wdistSq rgb x.2 = wdistSq rgb e.2)
    (hmin : ∀ x ∈ COLOR_MAP, wdistSq rgb e.2 ≤ wdistSq rgb x.2)
    (hfirst : ∀ x ∈ pre, wdistSq rgb e.2 < wdistSq rgb x.2) :
    closest_color rgb = e.1 := by
  have hpost : ∀ x ∈ post, ¬ wdistSq rgb x.2 < wdistSq rgb e.2 := by
    intro x hx
    refine not_lt.mpr (hmin x ?_)
    rw [hsplit]
    exact List.mem_append_right pre (List.mem_cons_of_mem e hx)
  unfold closest_color
  rw [hsplit, ccFold_first_min rgb pre post e hfirst hpost]

/-- C4 (witness): the sample (255, 64, 0) is equidistant from `red` and
`orange` (both differences are only in the green channel, 64 on each side),
that distance is minimal over the whole table, and the earlier entry `red`
wins the tie. -/
theorem C4_witness :
    wdistSq (255, 64, 0) (255, 128, 0) = wdistSq (255, 64, 0) (255, 0, 0)
    ∧ closest_color (255, 64, 0) = "red" := by
  constructor
  · norm_num [wdistSq, RED_W, GREEN_W, BLUE_W]
  · exact C4_tie_break (255, 64, 0) []
      [("orange", (255, 128, 0)), ("yellow", (255, 255, 0)), ("green", (0, 255, 0)),
       ("blue", (0, 0, 255)), ("indigo", (127, 0, 255)), ("violet", (255, 0, 255)),
       ("white", (255, 255, 255))]
      ("red", (255, 0, 0)) rfl
      ⟨("orange", (255, 128, 0)), List.mem_cons_self _ _,
        by norm_num [wdistSq, RED_W, GREEN_W, BLUE_W]⟩
      (by intro x hx
          simp only [COLOR_MAP, List.mem_cons, List.not_mem_nil, or_false] at hx
          rcases hx with rfl | rfl | rfl | rfl | rfl | rfl | rfl | rfl <;>
            norm_num [wdistSq, RED_W, GREEN_W, BLUE_W])
      (by intro x hx; exact absurd hx (List.not_mem_nil x))

/-- C6: an iteration of the main loop that reads `active = false` only
sleeps 0.1 s and re-checks: its effect trace contains no sensor read, no
speech, and no buzzer action, whatever the sensors would have returned. -/
theorem C6_paused_iteration_idle (rgb : ℤ × ℤ × ℤ) (dist : ℚ) :
    loopIter false rgb dist = [Effect.sleep (1/10)] := rfl

/-- C7 (counterexample): the diagnostic `closest_color` is not extensionally
equal to `main.py`'s: at the sample (0, 0, 0) the diagnostic returns
`black` (its extra 9th entry, at distance 0) while `main.py` returns
`blue` (the 8-entry table's nearest reference). -/
theorem C7_counterexample :
    Tools.closest_color (0, 0, 0) = "black" ∧ closest_color (0, 0, 0) = "blue"
    ∧ Tools.closest_color (0, 0, 0) ≠ closest_color (0, 0, 0) := by
  have h1 : Tools.closest_color (0, 0, 0) = "black" := by
    norm_num [Tools.closest_color, ccFold, Tools.COLOR_MAP, ccStep, wdistSq, RED_W,
      GREEN_W, BLUE_W, List.foldl]
  have h2 : closest_color (0, 0, 0) = "blue" := by
    norm_num [closest_color, ccFold, COLOR_MAP, ccStep, wdistSq, RED_W, GREEN_W, BLUE_W,
      List.foldl]
  exact ⟨h1, h2, by rw [h1, h2]; decide⟩

/-- C7 (amended): the diagnostic `distance_cm` is extensionally equal to
`main.py`'s, and the diagnostic `closest_color` agrees with `main.py`'s on
every sample on which it does not answer `black` (its one extra entry);
on samples nearest to black the two classifiers differ. -/
theorem C7_amended_equivalence :
    (∀ tStart tEnd : ℚ, Tools.distance_cm tStart tEnd = distance_cm tStart tEnd)
    ∧ (∀ rgb : ℤ × ℤ × ℤ, Tools.closest_color rgb ≠ "black" →
        Tools.closest_color rgb = closest_color rgb) :=
  ⟨fun _ _ => rfl, tools_agree⟩

/-- C7 (witness): the amended theorem applied at the pulse pair (1, 3) and
at the sample (255, 0, 0), where the diagnostic answers `red` ≠ `black`. -/
theorem C7_witness :
    Tools.distance_cm 1 3 = distance_cm 1 3
    ∧ Tools.closest_color (255, 0, 0) ≠ "black"
    ∧ Tools.closest_color (255, 0, 0) = closest_color (255, 0, 0) := by
  have hred : Tools.closest_color (255, 0, 0) = "red" := by
    norm_num [Tools.closest_color, ccFold, Tools.COLOR_MAP, ccStep, wdistSq, RED_W,
      GREEN_W, BLUE_W, List.foldl]
  have hne : Tools.closest_color (255, 0, 0) ≠ "black" := by
    rw [hred]; decide
  exact ⟨C7_amended_equivalence.1 1 3, hne, C7_amended_equivalence.2 (255, 0, 0) hne⟩

/-- C8: on every sample, `closest_color` returns the name of some
`COLOR_MAP` entry and never the sentinel `"unknown"` — with the fixed
nonempty table the first entry always replaces the sentinel. -/
theorem C8_always_names_from_table (rgb : ℤ × ℤ × ℤ) :
    closest_color rgb ∈ COLOR_MAP.map Prod.fst ∧ closest_color rgb ≠ "unknown" := by
  have hmem : closest_color rgb ∈ COLOR_MAP.map Prod.fst :=
    ccFold_mem_cons rgb ("red", ((255 : ℤ), (0 : ℤ), (0 : ℤ)))
      [("orange", (255, 128, 0)), ("yellow", (255, 255, 0)), ("green", (0, 255, 0)),
       ("blue", (0, 0, 255)), ("indigo", (127, 0, 255)), ("violet", (255, 0, 255)),
       ("white", (255, 255, 255))]
  refine ⟨hmem, fun heq => ?_⟩
  rw [heq] at hmem
  exact absurd hmem (by decide)

/-- Unfolding `buttonEvent` with no prior accepted edge: the callback runs. -/
lemma buttonEvent_fresh (a : Bool) (t : ℚ) :
    buttonEvent ⟨a, none⟩ t = ⟨!a, some t⟩ := rfl

/-- Unfolding `buttonEvent` on an edge at or past the debounce window. -/
lemma buttonEvent_accept (b : Bool) (t0 t : ℚ) (h : ¬ t - t0 < DEBOUNCE_MS) :
    buttonEvent ⟨b, some t0⟩ t = ⟨!b, some t⟩ := by
  show (if t - t0 < DEBOUNCE_MS then (⟨b, some t0⟩ : ButtonState)
        else ⟨on_button b, some t⟩) = ⟨!b, some t⟩
  rw [if_neg h]
  rfl

/-- Unfolding `buttonEvent` on an edge strictly inside the debounce window. -/
lemma buttonEvent_suppress (b : Bool) (t0 t : ℚ) (h : t - t0 < DEBOUNCE_MS) :
    buttonEvent ⟨b, some t0⟩ t = ⟨b, some t0⟩ := by
  show (if t - t0 < DEBOUNCE_MS then (⟨b, some t0⟩ : ButtonState)
        else ⟨on_button b, some t⟩) = ⟨b, some t0⟩
  rw [if_pos h]

/-- C9: after an accepted toggle at `t1`, a second toggle at `t2` more than
200 ms later is accepted and returns `active` to its original value, while
a toggle at `t3` strictly inside the 200 ms window is suppressed and leaves
the whole state unchanged. -/
theorem C9_toggle_debounce (a : Bool) (t1 t2 t3 : ℚ)
    (h2 : t2 - t1 > DEBOUNCE_MS) (h3 : t3 - t1 < DEBOUNCE_MS) :
    (buttonEvent (buttonEvent ⟨a, none⟩ t1) t2).active = a
    ∧ buttonEvent (buttonEvent ⟨a, none⟩ t1) t3 = buttonEvent ⟨a, none⟩ t1 := by
  rw [buttonEvent_fresh]
  constructor
  · rw [buttonEvent_accept (!a) t1 t2 (not_lt.mpr (le_of_lt h2))]
    exact Bool.not_not a
  · rw [buttonEvent_suppress (!a) t1 t3 h3]

/-- C9 (witness): the theorem applied with `active = true`, a first toggle
at t = 0 ms, an accepted second toggle at 300 ms, and a suppressed toggle
at 100 ms. -/
theorem C9_witness :
    ((300 : ℚ) - 0 > DEBOUNCE_MS) ∧ ((100 : ℚ) - 0 < DEBOUNCE_MS)
    ∧ (buttonEvent (buttonEvent ⟨true, none⟩ 0) 300).active = true
    ∧ buttonEvent (buttonEvent ⟨true, none⟩ 0) 100 = buttonEvent ⟨true, none⟩ 0 :=
  ⟨by norm_num [DEBOUNCE_MS], by norm_num [DEBOUNCE_MS],
   (C9_toggle_debounce true 0 300 100 (by norm_num [DEBOUNCE_MS])
     (by norm_num [DEBOUNCE_MS])).1,
   (C9_toggle_debounce true 0 300 100 (by norm_num [DEBOUNCE_MS])
     (by norm_num [DEBOUNCE_MS])).2⟩
